import Mathlib

/-!
Verification of the RepoPush project uploader (`src/main.py`) against its
natural-language specification.

The program is a single linear workflow in the class
`GitHubProjectUploader`.  We embed it shallowly:

* a file tree is a list of `(path, content)` pairs, a path being the list
  of its components relative to the project root (directories are
  represented implicitly through the files below them);
* Python strings are embedded as `List Char` where character-index
  arithmetic matters (`str.find`, slicing, `str.strip`), and as `String`
  at the interfaces;
* the external collaborators (Ollama HTTP backend, GitHub API, the `git`
  subprocess) are abstracted by small inductive outcome types, and the
  side effects of a run (commit created, remote added, push, workspace
  cleanup, working-directory change) are recorded in an `Effects`
  structure threaded through an explicit embedding of
  `upload_project`'s control flow, including its `try`/`except`/`finally`
  discipline.
-/

namespace RepoPush

/-! ## Python string primitives -/

/-- Index of the first occurrence of `sub` in `l`, scanning left to right;
`none` when `sub` does not occur.  Mirrors Python `str.find` (which
returns `-1` for no occurrence; callers model that case explicitly). -/
def findSub (sub : List Char) : List Char → Option Nat
  | [] => if sub = [] then some 0 else none
  | c :: rest =>
    if sub.isPrefixOf (c :: rest) then some 0
    else (findSub sub rest).map (· + 1)

/-- Python `str.strip` whitespace test (ASCII whitespace, which is all the
source ever produces at the ends of the generated text). -/
def isPyWhitespace (c : Char) : Bool :=
  c = ' ' || c = '\t' || c = '\n' || c = '\r' || c = '\x0b' || c = '\x0c'

/-- Python `str.strip`: remove leading and trailing whitespace. -/
def pyStrip (l : List Char) : List Char :=
  ((l.dropWhile isPyWhitespace).reverse.dropWhile isPyWhitespace).reverse

/-- Split into lines at every newline character (Python
`str.split("\n")` / line-oriented reading). -/
def splitLines : List Char → List (List Char)
  | [] => [[]]
  | c :: rest =>
    if c = '\n' then [] :: splitLines rest
    else
      match splitLines rest with
      | [] => [[c]]
      | l :: ls => (c :: l) :: ls

/-! ## File trees -/

/-- A staged project tree: one entry per file, the path given by its
components relative to the project root. -/
abbrev FileTree := List (List String × String)

/-- Look a file up by exact path. -/
def getFile (t : FileTree) (p : List String) : Option String :=
  (t.find? (fun f => f.1 = p)).map (·.2)

/-- Write a file: overwrite the entry at `p` when present, append it
otherwise (`open(..., 'w')` semantics). -/
def setFile : FileTree → List String → String → FileTree
  | [], p, c => [(p, c)]
  | f :: t, p, c => if f.1 = p then (p, c) :: t else f :: setFile t p c

/-- Delete the file at `p` when present (`os.remove` guarded by
`os.path.exists`). -/
def removeFile : FileTree → List String → FileTree
  | [], _ => []
  | f :: t, p => if f.1 = p then removeFile t p else f :: removeFile t p

/-- Python `str.endswith`, on the character lists underlying the
strings. -/
def strEndsWith (name suffix : String) : Bool :=
  suffix.data.isSuffixOf name.data

/-! ## Workspace Stager (`create_temp_workspace`, main.py:21-32) -/

/-- One name matches the stager's
`shutil.ignore_patterns('.git', '__pycache__', '*.pyc', '.env')`:
the three literal patterns match by equality, `*.pyc` by suffix. -/
def matchesIgnorePattern (name : String) : Bool :=
  name = ".git" || name = "__pycache__" || name = ".env" ||
    strEndsWith name ".pyc"

/-- `os.path.exists(os.path.join(source_path, '.git'))`: the source tree
has a version-control metadata directory at its root.  In the
files-as-paths model a directory is present when some file lies below
it. -/
def hasRootGit (src : FileTree) : Bool :=
  src.any (fun f => f.1.head? = some ".git")

/-- `create_temp_workspace`: copy the source tree into a fresh temporary
directory; when a `.git` directory is present at the source root the copy
excludes every entry whose name (at any depth, since `shutil.copytree`
applies the ignore callback in every directory) matches one of the ignore
patterns; otherwise everything is copied. -/
def create_temp_workspace (src : FileTree) : FileTree :=
  if hasRootGit src then
    src.filter (fun f => !(f.1.any matchesIgnorePattern))
  else src

/-! ## Content Sampler (`get_relevant_files_content`, main.py:34-54) -/

/-- A file encountered by the `os.walk` traversal: its base name, its
path, and the outcome of the attempted text read (`none` when `open`
or `read` raises — a decode failure or any I/O error). -/
structure WalkFile where
  name : String
  path : String
  readResult : Option String
  deriving Repr, DecidableEq

/-- The sampler's name-based exclusions:
`file in ['.env', '.gitignore'] or file.endswith(exclude_exts)` with
`exclude_exts = ('.pyc', '.pkl', '.db', '.log', '.DS_Store')`. -/
def isExcludedSampleName (name : String) : Bool :=
  name = ".env" || name = ".gitignore" ||
    [".pyc", ".pkl", ".db", ".log", ".DS_Store"].any
      (fun e => strEndsWith name e)

/-- `get_relevant_files_content`: walk the files in traversal order,
skip the excluded names, attempt a text read of each remaining file and
silently skip it when the read fails (`except: continue`); each success
contributes a `{name, path, content}` sample. -/
def get_relevant_files_content (fs : List WalkFile) :
    List (String × String × String) :=
  fs.filterMap (fun f =>
    if isExcludedSampleName f.name then none
    else f.readResult.map (fun c => (f.name, f.path, c)))

/-! ## Document Generator (`generate_with_ollama`, main.py:56-85) -/

/-- The characters of the literal `"<think>"`. -/
def thinkOpen : List Char := ['<', 't', 'h', 'i', 'n', 'k', '>']

/-- The characters of the literal `"</think>"`. -/
def thinkClose : List Char := ['<', '/', 't', 'h', 'i', 'n', 'k', '>']

/-- The think-tag removal of main.py:77-80: when `"<think>"` occurs,
slice out `response_text[:start] + response_text[end:]` where `start` is
the index of the first `"<think>"` and `end` is the index of the first
`"</think>"` plus 8 (Python `find` returns `-1` when `"</think>"` is
absent, making `end` equal to `7` in that case). -/
def stripThinkChars (s : List Char) : List Char :=
  match findSub thinkOpen s with
  | none => s
  | some start =>
    let stop :=
      match findSub thinkClose s with
      | none => 7
      | some j => j + 8
    s.take start ++ s.drop stop

/-- Outcome of the single HTTP request to the Ollama backend: either the
`response` field of a successful JSON reply, or any raised exception
(connection failure, non-2xx status via `raise_for_status`, malformed
JSON). -/
inductive BackendResult where
  | ok (text : String)
  | err
  deriving Repr, DecidableEq

/-- `generate_with_ollama`: on success, strip the first think-span and the
surrounding whitespace from the returned text; on any exception, print the
error and return the empty string (main.py:83-85) — the exception does not
propagate. -/
def generate_with_ollama : BackendResult → String
  | .ok t => String.mk (pyStrip (stripThinkChars t.data))
  | .err => ""

/-! ## GitHub lookup (`check_repo_exists`, main.py:124-131) -/

/-- Behaviour of `user.get_repo(repo_name)` inside `check_repo_exists`:
it returns a repository, raises not-found, or raises any other exception
(authentication failure, network error, rate limiting). -/
inductive LookupOutcome where
  | found
  | notFound
  | raised
  deriving Repr, DecidableEq

/-- `check_repo_exists` wraps the lookup in `try`/`except` with a bare
`except: return None`: the repository handle survives only on a
successful lookup, and every exception — not-found or otherwise — yields
`None` (here `false`). -/
def check_repo_exists : LookupOutcome → Bool
  | .found => true
  | .notFound => false
  | .raised => false

/-! ## Publisher (`upload_project`, main.py:133-195) -/

/-- Default `.gitignore` contents written when the file is absent
(main.py:147). -/
def defaultGitignore : String := ".env\n__pycache__/\n*.pyc\n"

/-- Inputs of one `upload_project` run, together with fault-injection
flags for the external operations that can raise: `copyFail` for
`shutil.copytree` (source path missing or unreadable), `gitFail` for a
non-zero exit of `git init`/`add`/`commit` (each run with `check=True`),
`createFail` for `user.create_repo`, and `pushFail` for
`git remote add`/`git push`. -/
structure UploadArgs where
  src : FileTree
  repoName : String
  update_existing : Bool
  backend : BackendResult
  lookup : LookupOutcome
  copyFail : Bool
  gitFail : Bool
  createFail : Bool
  pushFail : Bool
  deriving Repr, DecidableEq

/-- Observable side effects of one `upload_project` run. -/
structure Effects where
  /-- `tempfile.mkdtemp` ran: `self.temp_dir` is set and the directory
  exists on disk. -/
  workspaceCreated : Bool
  /-- The tree recorded by `git commit` (the workspace contents at
  main.py:160), when the commit was created. -/
  committed : Option FileTree
  /-- `git remote add origin ...` ran. -/
  remoteAdded : Bool
  /-- `user.create_repo` ran. -/
  createdRemote : Bool
  /-- A `git push` to the remote ran. -/
  pushed : Bool
  /-- The push used `--force`. -/
  forcedPush : Bool
  /-- Number of requests sent to the generation backend. -/
  backendCalls : Nat
  /-- `os.chdir(project_path)` ran (main.py:155). -/
  cwdChangedToWorkspace : Bool
  /-- The working directory was changed back afterwards (no such call
  exists in the source). -/
  cwdRestored : Bool
  /-- The `finally` block removed the workspace tree
  (`shutil.rmtree`, main.py:193-195). -/
  workspaceDeleted : Bool
  deriving Repr, DecidableEq

/-- The effects at the start of a run. -/
def Effects.init : Effects :=
  { workspaceCreated := false, committed := none, remoteAdded := false,
    createdRemote := false, pushed := false, forcedPush := false,
    backendCalls := 0, cwdChangedToWorkspace := false,
    cwdRestored := false, workspaceDeleted := false }

/-- The workspace contents at the moment `git commit` runs
(main.py:136-160): the staged copy, `README.md` written from the
generator's output, `.gitignore` created with the default rules when no
such file exists (and left untouched when one does), and a root-level
`.env` deleted. -/
def stagedTree (a : UploadArgs) : FileTree :=
  let ws0 := create_temp_workspace a.src
  let ws1 := setFile ws0 ["README.md"] (generate_with_ollama a.backend)
  let ws2 :=
    if (getFile ws1 [".gitignore"]).isNone then
      setFile ws1 [".gitignore"] defaultGitignore
    else ws1
  removeFile ws2 [".env"]

/-- The `try` body of `upload_project` (main.py:135-188), in source
order: stage the workspace, generate and write `README.md`, create
`.gitignore` when absent, delete a root-level `.env`, `chdir` into the
workspace, init/add/commit, then resolve the remote and push.  Every
raised exception becomes an `Except.error` carrying the effects
accumulated so far. -/
def uploadBody (a : UploadArgs) : Except String Unit × Effects :=
  let e0 : Effects := { Effects.init with workspaceCreated := true }
  if a.copyFail then (.error "copytree failed", e0)
  else
    let e1 : Effects := { e0 with backendCalls := 1 }
    let e2 : Effects := { e1 with cwdChangedToWorkspace := true }
    if a.gitFail then (.error "git command failed", e2)
    else
      let e3 : Effects := { e2 with committed := some (stagedTree a) }
      if check_repo_exists a.lookup then
        if a.update_existing = false then
          (.error ("Repository " ++ a.repoName ++
            " already exists. Use update_existing=True to update it."), e3)
        else
          let e4 : Effects := { e3 with remoteAdded := true }
          if a.pushFail then (.error "push failed", e4)
          else (.ok (), { e4 with pushed := true, forcedPush := true })
      else
        if a.createFail then (.error "create_repo failed", e3)
        else
          let e4 : Effects :=
            { e3 with createdRemote := true, remoteAdded := true }
          if a.pushFail then (.error "push failed", e4)
          else (.ok (), { e4 with pushed := true })

/-- `upload_project`: run the body, then the `finally` block — delete the
workspace tree whenever `self.temp_dir` is set and the directory exists,
on every exit path, success or exception (main.py:193-195). -/
def upload_project (a : UploadArgs) : Except String Unit × Effects :=
  let r := uploadBody a
  (r.1, { r.2 with workspaceDeleted := r.2.workspaceCreated })

/-! ## Derived observations used by the claims -/

/-- A line-for-line `.env` rule, the form the program itself writes. -/
def containsEnvRule (s : String) : Bool :=
  (splitLines s.data).any (fun l => l = ['.', 'e', 'n', 'v'])

/-- A markdown top-level title line: `#` followed by a space. -/
def isTitleLine (l : List Char) : Bool :=
  l.take 2 = ['#', ' ']

/-- A markdown second-level section marker line: it starts with `##`
and not `###`. -/
def isSecondLevelLine (l : List Char) : Bool :=
  l.take 2 = ['#', '#'] && !((l.drop 2).take 1 = ['#'])

/-- Number of top-level title lines of a document. -/
def countTitleLines (s : String) : Nat :=
  ((splitLines s.data).filter isTitleLine).length

/-- Number of second-level section marker lines of a document. -/
def countSecondLevelLines (s : String) : Nat :=
  ((splitLines s.data).filter isSecondLevelLine).length

/-! ## Concrete instances used to exercise the model -/

/-- A minimal source project: one text file. -/
def srcApp : FileTree := [(["app.txt"], "hello")]

/-- A baseline run: fresh repository name, working backend, no faults. -/
def baseArgs : UploadArgs :=
  { src := srcApp, repoName := "demo", update_existing := false,
    backend := .ok "# demo", lookup := .notFound, copyFail := false,
    gitFail := false, createFail := false, pushFail := false }

/-- A source tree with version-control metadata, a root secrets file, a
nested secrets file and a bytecode file. -/
def srcWithGit : FileTree :=
  [([".git", "config"], "[core]"), ([".env"], "SECRET=1"),
   (["app.py"], "print(1)"), (["sub", ".env"], "S=2"),
   (["sub", "b.pyc"], "bin")]

/-- A source tree whose ignore-rules file exists but lacks a `.env`
rule. -/
def srcNoRule : FileTree := [([".gitignore"], "node_modules/")]

/-- A backend reply with six second-level-marked segments and no
top-level title. -/
def sixSections : String := "## A\ncontent\n## B\n## C\n## D\n## E\n## F"

/-- A backend reply with two think-spans. -/
def twoSpans : String := "a<think>b</think>c<think>d</think>e"

/-! ## Helper lemmas about the file-tree operations -/

theorem getFile_cons (f : List String × String) (t : FileTree)
    (q : List String) :
    getFile (f :: t) q = if f.1 = q then some f.2 else getFile t q := by
  unfold getFile
  rw [List.find?_cons]
  by_cases h : f.1 = q <;> simp [h]

theorem getFile_setFile_self (t : FileTree) (p : List String) (c : String) :
    getFile (setFile t p c) p = some c := by
  induction t with
  | nil => simp [setFile, getFile_cons]
  | cons f t ih =>
    by_cases hf : f.1 = p
    · simp [setFile, hf, getFile_cons]
    · simp [setFile, hf, getFile_cons, ih]

theorem getFile_setFile_ne (t : FileTree) (p q : List String) (c : String)
    (h : q ≠ p) : getFile (setFile t p c) q = getFile t q := by
  have h2 : p ≠ q := Ne.symm h
  induction t with
  | nil => simp [setFile, getFile_cons, h2]
  | cons f t ih =>
    by_cases hf : f.1 = p
    · simp [setFile, hf, getFile_cons, h2]
    · simp [setFile, hf, getFile_cons, ih]

theorem getFile_removeFile_ne (t : FileTree) (p q : List String)
    (h : q ≠ p) : getFile (removeFile t p) q = getFile t q := by
  have h2 : p ≠ q := Ne.symm h
  induction t with
  | nil => rfl
  | cons f t ih =>
    by_cases hf : f.1 = p
    · simp [removeFile, hf, getFile_cons, h2, ih]
    · simp [removeFile, hf, getFile_cons, ih]

theorem mem_setFile (t : FileTree) (p : List String) (c : String)
    (f : List String × String) (h : f ∈ setFile t p c) :
    f ∈ t ∨ f = (p, c) := by
  induction t with
  | nil => simp [setFile] at h; simp [h]
  | cons g t ih =>
    by_cases hg : g.1 = p
    · simp [setFile, hg] at h
      rcases h with h | h
      · right; simp [h]
      · left; simp [h]
    · simp [setFile, hg] at h
      rcases h with h | h
      · left; simp [h]
      · rcases ih h with h' | h'
        · left; simp [h']
        · right; exact h'

theorem mem_removeFile (t : FileTree) (p : List String)
    (f : List String × String) (h : f ∈ removeFile t p) : f ∈ t := by
  induction t with
  | nil => simp [removeFile] at h
  | cons g t ih =>
    by_cases hg : g.1 = p
    · simp [removeFile, hg] at h
      exact List.mem_cons_of_mem g (ih h)
    · simp [removeFile, hg] at h
      rcases h with h | h
      · simp [h]
      · exact List.mem_cons_of_mem g (ih h)

theorem find?_filter_keep {α : Type} (l : List α) (p q : α → Bool)
    (h : ∀ x, q x = true → p x = true) :
    (l.filter p).find? q = l.find? q := by
  induction l with
  | nil => rfl
  | cons x xs ih =>
    by_cases hq : q x = true
    · simp [List.filter_cons, h x hq, List.find?_cons, hq]
    · have hq' : q x = false := by simpa using hq
      by_cases hp : p x = true
      · simp [List.filter_cons, hp, List.find?_cons, hq', ih]
      · have hp' : p x = false := by simpa using hp
        simp [List.filter_cons, hp', List.find?_cons, hq', ih]

/-- The stager never filters out an ignore-rules file: `.gitignore`
matches none of the ignore patterns, so staging preserves its lookup. -/
theorem getFile_stage_gitignore (src : FileTree) :
    getFile (create_temp_workspace src) [".gitignore"] =
      getFile src [".gitignore"] := by
  unfold create_temp_workspace
  by_cases h : hasRootGit src = true
  · simp only [h, if_true, getFile]
    rw [find?_filter_keep]
    intro f hf
    have hf' : f.1 = [".gitignore"] := by simpa using hf
    rw [hf']
    decide
  · simp [h]

/-- What `git commit` records: `none` when staging or a git command
raised first, the staged tree otherwise. -/
theorem upload_committed (a : UploadArgs) :
    (upload_project a).2.committed =
      if a.copyFail || a.gitFail then none else some (stagedTree a) := by
  rcases a with ⟨src, rn, upd, bk, lk, cf, gf, crf, pf⟩
  cases cf <;> cases gf <;> cases lk <;> cases upd <;> cases crf <;>
    cases pf <;> simp [upload_project, uploadBody, check_repo_exists,
      Effects.init]

/-- Whenever a commit was created, the committed tree is the staged
tree. -/
theorem committed_some (a : UploadArgs) (t : FileTree)
    (h : (upload_project a).2.committed = some t) : t = stagedTree a := by
  have hc := upload_committed a
  rw [h] at hc
  by_cases hb : (a.copyFail || a.gitFail) = true
  · rw [if_pos hb] at hc
    exact absurd hc (by simp)
  · rw [if_neg hb] at hc
    exact Option.some.inj hc

/-- The staged tree holds the generator's output at `README.md`. -/
theorem getFile_stagedTree_readme (a : UploadArgs) :
    getFile (stagedTree a) ["README.md"] =
      some (generate_with_ollama a.backend) := by
  simp only [stagedTree]
  rw [getFile_removeFile_ne _ _ _ (by decide)]
  split
  · rw [getFile_setFile_ne _ _ _ _ (by decide), getFile_setFile_self]
  · rw [getFile_setFile_self]

/-- The staged tree's ignore-rules file: the source's when one existed,
the default rules otherwise. -/
theorem getFile_stagedTree_gitignore (a : UploadArgs) :
    getFile (stagedTree a) [".gitignore"] =
      some ((getFile a.src [".gitignore"]).getD defaultGitignore) := by
  simp only [stagedTree]
  rw [getFile_removeFile_ne _ _ _ (by decide)]
  split
  · rename_i hnone
    rw [getFile_setFile_ne _ _ _ _ (by decide),
      getFile_stage_gitignore] at hnone
    rw [getFile_setFile_self, Option.isNone_iff_eq_none.mp hnone]
    rfl
  · rename_i hsome
    rw [getFile_setFile_ne _ _ _ _ (by decide),
      getFile_stage_gitignore] at hsome ⊢
    rcases ho : getFile a.src [".gitignore"] with _ | s
    · rw [ho] at hsome
      simp at hsome
    · rw [ho] at hsome
      rfl

/-- A path that survives the stager's ignore filter has no `.git` and no
`.env` component. -/
theorem no_bad_components (p : List String)
    (h : p.any matchesIgnorePattern = false) :
    ¬(".git" ∈ p) ∧ ¬(".env" ∈ p) := by
  constructor <;> intro hmem
  · have : p.any matchesIgnorePattern = true :=
      List.any_eq_true.mpr ⟨".git", hmem, by decide⟩
    rw [this] at h
    exact absurd h (by simp)
  · have : p.any matchesIgnorePattern = true :=
      List.any_eq_true.mpr ⟨".env", hmem, by decide⟩
    rw [this] at h
    exact absurd h (by simp)

/-! ## Claims -/

/-- C1: for every source project tree that contains a secrets file
(`.env`) and version-control metadata (a `.git` directory at the source
root, the location `create_temp_workspace` tests), the workspace tree
recorded by the commit contains neither a `.git` nor a `.env` component:
the stager's conditional `ignore_patterns` exclusion plus the publisher's
pre-commit deletion of the secrets file guarantee this. -/
theorem C1_committed_tree_never_holds_git_or_env (a : UploadArgs)
    (t : FileTree) (hgit : hasRootGit a.src = true)
    (_henv : a.src.any (fun f => f.1.contains ".env") = true)
    (h : (upload_project a).2.committed = some t) :
    ∀ p c, (p, c) ∈ t → ¬(".git" ∈ p) ∧ ¬(".env" ∈ p) := by
  intro p c hm
  rw [committed_some a t h] at hm
  simp only [stagedTree] at hm
  have hm2 := mem_removeFile _ _ _ hm
  have hmem1 : (p, c) ∈ setFile (create_temp_workspace a.src)
      (["README.md"]) (generate_with_ollama a.backend) ∨
      (p, c) = ([".gitignore"], defaultGitignore) := by
    split at hm2
    · exact mem_setFile _ _ _ _ hm2
    · exact Or.inl hm2
  rcases hmem1 with hmem1 | hmem1
  · rcases mem_setFile _ _ _ _ hmem1 with hmem0 | hmem0
    · rw [create_temp_workspace, if_pos hgit] at hmem0
      have hflt := (List.mem_filter.mp hmem0).2
      have : p.any matchesIgnorePattern = false := by
        simpa using hflt
      exact no_bad_components p this
    · have hp : p = ["README.md"] := congrArg Prod.fst hmem0
      rw [hp]
      exact ⟨by decide, by decide⟩
  · have hp : p = [".gitignore"] := congrArg Prod.fst hmem1
    rw [hp]
    exact ⟨by decide, by decide⟩

/-- Witness for C1 on a concrete source tree holding `.git/config`, a
root `.env`, a nested `.env` and a bytecode file. -/
theorem C1_committed_tree_never_holds_git_or_env_witness :
    hasRootGit srcWithGit = true ∧
    srcWithGit.any (fun f => f.1.contains ".env") = true ∧
    (upload_project { baseArgs with src := srcWithGit }).2.committed =
      some (stagedTree { baseArgs with src := srcWithGit }) ∧
    (¬(".git" ∈ (["app.py"] : List String)) ∧
      ¬(".env" ∈ (["app.py"] : List String))) :=
  ⟨by decide, by decide, by decide,
    C1_committed_tree_never_holds_git_or_env
      { baseArgs with src := srcWithGit }
      (stagedTree { baseArgs with src := srcWithGit })
      (by decide) (by decide) (by decide)
      (["app.py"]) "print(1)" (by decide)⟩

/-- C2 counterexample: when the source tree already has a `.gitignore`
without a `.env` rule, the committed tree's `.gitignore` is the source's
file unchanged — `upload_project` only creates the file when it is
absent (main.py:145-147) and never appends the rule — so the committed
ignore-rules file does not contain a rule matching the secrets
filename. -/
theorem C2_counterexample_present_without_rule :
    (upload_project { baseArgs with src := srcNoRule }).2.committed =
      some ([([".gitignore"], "node_modules/"),
        (["README.md"], "# demo")]) ∧
    getFile ([([".gitignore"], "node_modules/"),
        (["README.md"], "# demo")]) [".gitignore"] =
      some "node_modules/" ∧
    containsEnvRule "node_modules/" = false := by
  refine ⟨by decide, by decide, by decide⟩

/-- C2 as amended: the ignore-rules file of the committed tree contains
a rule matching the secrets filename when the file was absent from the
source (it is then created with the default rules, which contain the
`.env` line); when the file was already present it is committed
unchanged, so it contains the rule only if it already did — no append
occurs. -/
theorem C2_amended_gitignore_rule (a : UploadArgs) (t : FileTree)
    (h : (upload_project a).2.committed = some t) :
    getFile t [".gitignore"] =
      some ((getFile a.src [".gitignore"]).getD defaultGitignore) ∧
    containsEnvRule defaultGitignore = true := by
  rw [committed_some a t h]
  exact ⟨getFile_stagedTree_gitignore a, by decide⟩

/-- Witness for the amended C2 on a source tree with no ignore-rules
file. -/
theorem C2_amended_gitignore_rule_witness :
    (upload_project baseArgs).2.committed = some (stagedTree baseArgs) ∧
    (getFile (stagedTree baseArgs) [".gitignore"] =
      some ((getFile baseArgs.src [".gitignore"]).getD defaultGitignore) ∧
    containsEnvRule defaultGitignore = true) :=
  ⟨by decide,
    C2_amended_gitignore_rule baseArgs (stagedTree baseArgs) (by decide)⟩

/-- C6: on every exit path of `upload_project` — success or any raised
exception in the staging, generation, git or remote steps — the
temporary workspace directory tree is deleted by the `finally` block
before control returns to the caller. -/
theorem C6_cleanup_on_every_exit_path (a : UploadArgs) :
    (upload_project a).2.workspaceCreated = true ∧
    (upload_project a).2.workspaceDeleted = true := by
  rcases a with ⟨src, rn, upd, bk, lk, cf, gf, crf, pf⟩
  cases cf <;> cases gf <;> cases lk <;> cases upd <;> cases crf <;>
    cases pf <;> simp [upload_project, uploadBody, check_repo_exists,
      Effects.init]

/-- C5: when the remote repository already exists and the caller has not
opted into overwriting (`update_existing = false`), `upload_project`
raises the "repository already exists" condition and performs no
mutation of the remote: no remote is added, nothing is pushed, and no
repository is created. -/
theorem C5_existing_repo_without_opt_in (a : UploadArgs)
    (hlk : a.lookup = .found) (hupd : a.update_existing = false)
    (hcf : a.copyFail = false) (hgf : a.gitFail = false) :
    (upload_project a).1 = .error ("Repository " ++ a.repoName ++
      " already exists. Use update_existing=True to update it.") ∧
    (upload_project a).2.remoteAdded = false ∧
    (upload_project a).2.pushed = false ∧
    (upload_project a).2.createdRemote = false := by
  rcases a with ⟨src, rn, upd, bk, lk, cf, gf, crf, pf⟩
  simp only at hlk hupd hcf hgf
  subst hlk hupd hcf hgf
  simp [upload_project, uploadBody, check_repo_exists, Effects.init]

/-- Witness for C5: repository `demo` exists, overwrite not
requested. -/
theorem C5_existing_repo_without_opt_in_witness :
    (upload_project { baseArgs with lookup := .found }).1 =
      .error ("Repository " ++ "demo" ++
        " already exists. Use update_existing=True to update it.") ∧
    (upload_project { baseArgs with lookup := .found }).2.remoteAdded =
      false ∧
    (upload_project { baseArgs with lookup := .found }).2.pushed =
      false ∧
    (upload_project { baseArgs with lookup := .found }).2.createdRemote =
      false :=
  C5_existing_repo_without_opt_in { baseArgs with lookup := .found }
    rfl rfl rfl rfl

/-- C9: `check_repo_exists` turns every exception of the repository
lookup — not-found, but equally authentication or network errors — into
`None`, so a failed lookup is indistinguishable from
repository-not-found: the whole run behaves identically in the two
cases, and in particular proceeds to create a new remote repository
instead of reporting the lookup error. -/
theorem C9_lookup_error_like_not_found :
    check_repo_exists .raised = check_repo_exists .notFound ∧
    (∀ a : UploadArgs, a.lookup = .raised →
      upload_project a = upload_project { a with lookup := .notFound }) ∧
    (∀ a : UploadArgs, a.lookup = .raised → a.copyFail = false →
      a.gitFail = false → a.createFail = false →
      (upload_project a).2.createdRemote = true) := by
  refine ⟨rfl, ?_, ?_⟩
  · intro a h
    rcases a with ⟨src, rn, upd, bk, lk, cf, gf, crf, pf⟩
    simp only at h
    subst h
    rfl
  · intro a h hcf hgf hcrf
    rcases a with ⟨src, rn, upd, bk, lk, cf, gf, crf, pf⟩
    simp only at h hcf hgf hcrf
    subst h hcf hgf hcrf
    cases pf <;>
      simp [upload_project, uploadBody, check_repo_exists, Effects.init]

/-- Witness for C9 at a concrete run whose lookup raises. -/
theorem C9_lookup_error_like_not_found_witness :
    upload_project { baseArgs with lookup := .raised } =
      upload_project { baseArgs with lookup := .notFound } ∧
    (upload_project { baseArgs with lookup := .raised }).2.createdRemote =
      true :=
  ⟨C9_lookup_error_like_not_found.2.1 { baseArgs with lookup := .raised }
      rfl,
    C9_lookup_error_like_not_found.2.2 { baseArgs with lookup := .raised }
      rfl rfl rfl rfl⟩

/-- C10: `upload_project` changes the process working directory to the
workspace before the git commands and never restores it, while the
cleanup step deletes the workspace tree: after every run that returns
successfully the working directory refers to a deleted path. -/
theorem C10_cwd_left_inside_deleted_workspace (a : UploadArgs)
    (h : (upload_project a).1 = .ok ()) :
    (upload_project a).2.cwdChangedToWorkspace = true ∧
    (upload_project a).2.cwdRestored = false ∧
    (upload_project a).2.workspaceDeleted = true := by
  rcases a with ⟨src, rn, upd, bk, lk, cf, gf, crf, pf⟩
  cases cf <;> cases gf <;> cases lk <;> cases upd <;> cases crf <;>
    cases pf <;>
    simp_all [upload_project, uploadBody, check_repo_exists, Effects.init]

/-- Witness for C10 on the baseline successful run. -/
theorem C10_cwd_left_inside_deleted_workspace_witness :
    (upload_project baseArgs).1 = .ok () ∧
    ((upload_project baseArgs).2.cwdChangedToWorkspace = true ∧
    (upload_project baseArgs).2.cwdRestored = false ∧
    (upload_project baseArgs).2.workspaceDeleted = true) :=
  ⟨rfl, C10_cwd_left_inside_deleted_workspace baseArgs rfl⟩

/-- C8: a file the sampler visits whose text read fails (decode failure
or any I/O error) never aborts the run: it contributes no sample, and
sampling continues with the remaining files exactly as if the file were
not there. -/
theorem C8_unreadable_file_silently_skipped (fs1 fs2 : List WalkFile)
    (f : WalkFile) (hname : isExcludedSampleName f.name = false)
    (hread : f.readResult = none) :
    get_relevant_files_content (fs1 ++ f :: fs2) =
      get_relevant_files_content fs1 ++ get_relevant_files_content fs2 := by
  simp [get_relevant_files_content, List.filterMap_append,
    List.filterMap_cons, hname, hread]

/-- Witness for C8: a binary file between two readable ones. -/
theorem C8_unreadable_file_silently_skipped_witness :
    isExcludedSampleName "data.bin" = false ∧
    get_relevant_files_content
        ([⟨"a.py", "p/a.py", some "print(1)"⟩] ++
          ⟨"data.bin", "p/data.bin", none⟩ :: [⟨"b.md", "p/b.md", some "hi"⟩]) =
      get_relevant_files_content [⟨"a.py", "p/a.py", some "print(1)"⟩] ++
        get_relevant_files_content [⟨"b.md", "p/b.md", some "hi"⟩] :=
  ⟨by decide,
    C8_unreadable_file_silently_skipped
      [⟨"a.py", "p/a.py", some "print(1)"⟩]
      [⟨"b.md", "p/b.md", some "hi"⟩]
      ⟨"data.bin", "p/data.bin", none⟩ (by decide) rfl⟩

/-! ## Lemmas about `findSub` and the think-span removal -/

/-- Scanning for a pattern that starts with `'<'` skips any block free of
`'<'`, shifting the found index by the block's length. -/
theorem findSub_skip (sub : List Char) (hsub : sub.head? = some '<')
    (x : List Char) (hx : ∀ c ∈ x, c ≠ '<') (l : List Char) :
    findSub sub (x ++ l) = (findSub sub l).map (· + x.length) := by
  induction x with
  | nil =>
    simp only [List.nil_append, List.length_nil]
    cases findSub sub l <;> simp
  | cons c cs ih =>
    have hpre : sub.isPrefixOf (c :: (cs ++ l)) = false := by
      cases sub with
      | nil => simp at hsub
      | cons s ss =>
        have hs : s = '<' := by simpa using hsub
        subst hs
        have hc : c ≠ '<' := hx c (by simp)
        have hbeq : ('<' == c) = false :=
          beq_eq_false_iff_ne.mpr (Ne.symm hc)
        simp [List.isPrefixOf, hbeq]
    rw [List.cons_append,
      show findSub sub (c :: (cs ++ l)) =
          (findSub sub (cs ++ l)).map (· + 1) from by simp [findSub, hpre],
      ih (fun d hd => hx d (List.mem_cons_of_mem _ hd))]
    cases findSub sub l <;> simp [Nat.add_assoc]

/-- A pattern is found at index 0 of any list it starts. -/
theorem findSub_here (sub t : List Char) (hne : sub ≠ []) :
    findSub sub (sub ++ t) = some 0 := by
  cases sub with
  | nil => exact absurd rfl hne
  | cons c cs =>
    have hpre : (c :: cs).isPrefixOf (c :: (cs ++ t)) = true := by
      rw [show c :: (cs ++ t) = (c :: cs) ++ t from rfl,
        List.isPrefixOf_iff_prefix]
      exact List.prefix_append _ _
    rw [List.cons_append]
    simp [findSub, hpre]

/-- The first `"</think>"` after `"<think>" ++ m` (with `m` free of
`'<'`) sits right after `m`, at index `7 + m.length`. -/
theorem findSub_close_after_open (m b : List Char)
    (hm : ∀ c ∈ m, c ≠ '<') :
    findSub thinkClose (thinkOpen ++ (m ++ (thinkClose ++ b))) =
      some (7 + m.length) := by
  have h1 : findSub thinkClose (m ++ (thinkClose ++ b)) = some m.length := by
    rw [findSub_skip thinkClose rfl m hm,
      findSub_here thinkClose b (by decide)]
    simp
  have step : ∀ (c : Char) (l : List Char),
      thinkClose.isPrefixOf (c :: l) = false →
      findSub thinkClose (c :: l) = (findSub thinkClose l).map (· + 1) := by
    intro c l h
    simp [findSub, h]
  have hpre0 : ∀ l : List Char,
      thinkClose.isPrefixOf ('<' :: 't' :: l) = false := by
    intro l
    simp [thinkClose, List.isPrefixOf]
  have hpreNe : ∀ (c : Char) (l : List Char), c ≠ '<' →
      thinkClose.isPrefixOf (c :: l) = false := by
    intro c l hc
    have hbeq : ('<' == c) = false := beq_eq_false_iff_ne.mpr (Ne.symm hc)
    simp [thinkClose, List.isPrefixOf, hbeq]
  rw [show thinkOpen ++ (m ++ (thinkClose ++ b)) =
      '<' :: 't' :: 'h' :: 'i' :: 'n' :: 'k' :: '>' ::
        (m ++ (thinkClose ++ b)) from rfl,
    step '<' _ (hpre0 _),
    step 't' _ (hpreNe 't' _ (by decide)),
    step 'h' _ (hpreNe 'h' _ (by decide)),
    step 'i' _ (hpreNe 'i' _ (by decide)),
    step 'n' _ (hpreNe 'n' _ (by decide)),
    step 'k' _ (hpreNe 'k' _ (by decide)),
    step '>' _ (hpreNe '>' _ (by decide)),
    h1]
  simp
  omega

/-- The think-tag removal deletes exactly the first
`"<think>" ... "</think>"` span: everything before the span and
everything after its closing tag — later spans included — survives. -/
theorem stripThink_first_span (aL m b : List Char)
    (ha : ∀ c ∈ aL, c ≠ '<') (hm : ∀ c ∈ m, c ≠ '<') :
    stripThinkChars (aL ++ (thinkOpen ++ (m ++ (thinkClose ++ b)))) =
      aL ++ b := by
  have hopen : findSub thinkOpen
      (aL ++ (thinkOpen ++ (m ++ (thinkClose ++ b)))) = some aL.length := by
    rw [findSub_skip thinkOpen rfl aL ha,
      findSub_here thinkOpen _ (by decide)]
    simp
  have hclose : findSub thinkClose
      (aL ++ (thinkOpen ++ (m ++ (thinkClose ++ b)))) =
      some (aL.length + (7 + m.length)) := by
    rw [findSub_skip thinkClose rfl aL ha, findSub_close_after_open m b hm]
    simp [Nat.add_comm]
  rw [stripThinkChars, hopen, hclose]
  simp only
  rw [show aL.length + (7 + m.length) + 8 =
      aL.length + (7 + (m.length + 8)) from by omega,
    List.drop_append, List.take_left,
    show (7 : Nat) + (m.length + 8) =
      thinkOpen.length + (m.length + 8) from rfl,
    List.drop_append, List.drop_append,
    show (8 : Nat) = thinkClose.length from rfl, List.drop_left]

/-- C7 counterexample: for a backend text with two think-spans the
implementation removes only the first; the second span — `"<think>"` at
index 2, `"</think>"` at index 10 of the result — survives into the
generated document, so not every delimited span is removed. -/
theorem C7_counterexample_second_span_survives :
    String.mk (stripThinkChars twoSpans.data) = "ac<think>d</think>e" ∧
    findSub thinkOpen (stripThinkChars twoSpans.data) = some 2 ∧
    findSub thinkClose (stripThinkChars twoSpans.data) = some 10 := by
  refine ⟨by decide, by decide, by decide⟩

/-- C7 as amended: only the first `<think>...</think>` span is removed
from the backend text — the text up to the first `"<think>"` and
everything after the first `"</think>"`, any later spans included, is
kept verbatim. -/
theorem C7_amended_only_first_span_removed (aL m b : List Char)
    (ha : ∀ c ∈ aL, c ≠ '<') (hm : ∀ c ∈ m, c ≠ '<') :
    stripThinkChars (aL ++ thinkOpen ++ m ++ thinkClose ++ b) =
      aL ++ b := by
  rw [show aL ++ thinkOpen ++ m ++ thinkClose ++ b =
      aL ++ (thinkOpen ++ (m ++ (thinkClose ++ b))) from by
    simp [List.append_assoc]]
  exact stripThink_first_span aL m b ha hm

/-- Witness for the amended C7 at a concrete one-span text. -/
theorem C7_amended_only_first_span_removed_witness :
    (∀ c ∈ (['x'] : List Char), c ≠ '<') ∧
    (∀ c ∈ (['y'] : List Char), c ≠ '<') ∧
    stripThinkChars (['x'] ++ thinkOpen ++ ['y'] ++ thinkClose ++ ['z']) =
      ['x'] ++ ['z'] :=
  ⟨by decide, by decide,
    C7_amended_only_first_span_removed ['x'] ['y'] ['z']
      (by decide) (by decide)⟩

/-- C3 counterexample: the program applies no section normalization.
For a backend reply with six second-level-marked segments and no
top-level title, the committed `README.md` is the reply verbatim: it has
zero top-level title lines (not exactly one) and all six second-level
sections (not at most four). -/
theorem C3_counterexample_six_sections_survive :
    (upload_project { baseArgs with backend := .ok sixSections }).2.committed =
      some ([(["app.txt"], "hello"), (["README.md"], sixSections),
        ([".gitignore"], defaultGitignore)]) ∧
    countTitleLines sixSections = 0 ∧
    countSecondLevelLines sixSections = 6 ∧
    ¬(countTitleLines sixSections = 1 ∧
      countSecondLevelLines sixSections ≤ 4) := by
  refine ⟨by decide, by decide, by decide, by decide⟩

/-- C3 as amended: no normalization step exists; the document written to
`README.md` is the backend response itself, unchanged except for the
removal of the first think-span and of surrounding whitespace — no title
is synthesized and no four-section cap is applied, so every second-level
segment of the response remains in place. -/
theorem C3_amended_readme_is_unnormalized (a : UploadArgs) (resp : String)
    (t : FileTree) (hb : a.backend = .ok resp)
    (hnothink : findSub thinkOpen resp.data = none)
    (h : (upload_project a).2.committed = some t) :
    getFile t ["README.md"] = some (String.mk (pyStrip resp.data)) := by
  rw [committed_some a t h, getFile_stagedTree_readme, hb]
  simp [generate_with_ollama, stripThinkChars, hnothink]

/-- Witness for the amended C3 at the six-section backend reply. -/
theorem C3_amended_readme_is_unnormalized_witness :
    findSub thinkOpen sixSections.data = none ∧
    (upload_project { baseArgs with backend := .ok sixSections }).2.committed =
      some (stagedTree { baseArgs with backend := .ok sixSections }) ∧
    getFile (stagedTree { baseArgs with backend := .ok sixSections })
        ["README.md"] = some (String.mk (pyStrip sixSections.data)) :=
  ⟨by decide, by decide,
    C3_amended_readme_is_unnormalized
      { baseArgs with backend := .ok sixSections } sixSections
      (stagedTree { baseArgs with backend := .ok sixSections })
      rfl (by decide) (by decide)⟩

/-- Without `copytree` failure the backend is called exactly once per
run — there is no retry. -/
theorem upload_backendCalls (a : UploadArgs) (hcf : a.copyFail = false) :
    (upload_project a).2.backendCalls = 1 := by
  rcases a with ⟨src, rn, upd, bk, lk, cf, gf, crf, pf⟩
  simp only at hcf
  subst hcf
  cases gf <;> cases lk <;> cases upd <;> cases crf <;> cases pf <;>
    simp [upload_project, uploadBody, check_repo_exists, Effects.init]

/-- C4 counterexample: with the backend unreachable (the request
raises), the run does not surface a failure and does not terminate:
`generate_with_ollama` swallows the exception and returns the empty
string, and the run goes on to commit an empty `README.md` and push it,
returning success. -/
theorem C4_counterexample_backend_error_swallowed :
    (upload_project { baseArgs with backend := .err }).1 = .ok () ∧
    (upload_project { baseArgs with backend := .err }).2.pushed = true ∧
    (upload_project { baseArgs with backend := .err }).2.committed =
      some ([(["app.txt"], "hello"), (["README.md"], ""),
        ([".gitignore"], defaultGitignore)]) := by
  refine ⟨rfl, rfl, by decide⟩

/-- C4 as amended: a backend failure is caught inside the generator,
which logs it and returns an empty string instead of propagating; the
run does not terminate on it — it commits a `README.md` whose content is
the empty string — and the backend is called exactly once, with no
automatic retry. -/
theorem C4_amended_backend_error_not_surfaced (a : UploadArgs)
    (hb : a.backend = .err) (hcf : a.copyFail = false)
    (hgf : a.gitFail = false) :
    generate_with_ollama a.backend = "" ∧
    (upload_project a).2.committed = some (stagedTree a) ∧
    getFile (stagedTree a) ["README.md"] = some "" ∧
    (upload_project a).2.backendCalls = 1 := by
  refine ⟨by rw [hb]; rfl, ?_, ?_, upload_backendCalls a hcf⟩
  · rw [upload_committed a, hcf, hgf]
    rfl
  · rw [getFile_stagedTree_readme, hb]
    rfl

/-- Witness for the amended C4 at a concrete run with a raising
backend. -/
theorem C4_amended_backend_error_not_surfaced_witness :
    generate_with_ollama ({ baseArgs with backend := .err } :
      UploadArgs).backend = "" ∧
    (upload_project { baseArgs with backend := .err }).2.committed =
      some (stagedTree { baseArgs with backend := .err }) ∧
    getFile (stagedTree { baseArgs with backend := .err }) ["README.md"] =
      some "" ∧
    (upload_project { baseArgs with backend := .err }).2.backendCalls = 1 :=
  C4_amended_backend_error_not_surfaced { baseArgs with backend := .err }
    rfl rfl rfl

end RepoPush
